import Mathlib

/-!
# gh-dash, the workflow-runs section

A shallow embedding of `data/actionsapi.go` (the `gh run list` parser) and of
`ui/components/listviewport/runssection` (the runs section model: dimensions,
columns, rows, fetch command, context update, view and update), followed by the
properties of that code.

Conventions of the embedding:

* a Go `string` is a Lean `String`; `strings.Split` is only ever called with a
  one-character separator and is embedded for that case;
* a Go `error` is an `Option GoError` (`none` is `nil`);
* a Go run-time panic is the `Except.error` branch of `Except GoPanic`;
* a Go `int` is an `Int`, arithmetic on it wraps at 64 bits (`wrapInt`);
* pointer receivers become state passing: a method that mutates `*Model`
  returns the new `Model`;
* the section holds its program context by pointer: `Ctx` is an address, and
  what it points to is read from the memory (`Heap`) of the moment of the read,
  so that a context the owner has changed in place is seen changed; the
  `Config` pointer inside a context is embedded as the value it points to;
* what belongs to other libraries (lipgloss rendering, the bubbles spinner, the
  table's own view) is taken as a parameter, bundled in `Env`.
-/

namespace GhDash

/-! ## Go run time -/

/-- A Go `error` value, identified by the text of its `Error()` method. -/
structure GoError where
  Error : String
deriving DecidableEq, Repr

/-- The run-time panics the embedded code can raise. -/
inductive GoPanic where
  | sliceBoundsOutOfRange
  | indexOutOfRange
deriving DecidableEq, Repr

/-- Two's complement wrap-around of a 64-bit Go `int`. -/
def wrapInt (x : Int) : Int := (x + 2 ^ 63) % 2 ^ 64 - 2 ^ 63

/-- The slice expression `xs[lo:]`: panics unless `0 <= lo <= len(xs)`. -/
def sliceFrom {α : Type} (xs : List α) (lo : Int) : Except GoPanic (List α) :=
  if 0 ≤ lo ∧ lo ≤ (xs.length : Int) then .ok (xs.drop lo.toNat)
  else .error .sliceBoundsOutOfRange

/-- The slice expression `xs[:hi]`: panics unless `0 <= hi <= len(xs)`
(the capacity of the slices it is applied to is at least their length, and `hi`
never exceeds the length here). -/
def sliceTo {α : Type} (xs : List α) (hi : Int) : Except GoPanic (List α) :=
  if 0 ≤ hi ∧ hi ≤ (xs.length : Int) then .ok (xs.take hi.toNat)
  else .error .sliceBoundsOutOfRange

/-- The index expression `xs[i]`: panics unless `i < len(xs)`. -/
def index {α : Type} (xs : List α) (i : Nat) : Except GoPanic α :=
  match xs[i]? with
  | some x => .ok x
  | none => .error .indexOutOfRange

/-- Splitting a character sequence at every occurrence of `sep`; the result has
one more piece than there are separators. -/
def splitChars (sep : Char) : List Char → List (List Char)
  | [] => [[]]
  | c :: cs =>
    if c = sep then [] :: splitChars sep cs
    else
      match splitChars sep cs with
      | [] => [[c]]
      | x :: xs => (c :: x) :: xs

/-- Go's `strings.Split(s, sep)` for a separator of one character. -/
def strings.Split (s : String) (sep : Char) : List String :=
  (splitChars sep s.data).map String.mk

/-- Go's `strconv.FormatInt(i, 10)`. -/
def strconv.FormatInt (i : Int) : String :=
  if i < 0 then "-" ++ String.mk (Nat.toDigits 10 i.natAbs)
  else String.mk (Nat.toDigits 10 i.natAbs)

/-! ## data/actionsapi.go -/

/-- The record `data.RunData`. -/
structure RunData where
  Status : String
  Title : String
  Workflow : String
  Branch : String
  Event : String
  Id : String
  Elapsed : String
  Age : String
deriving DecidableEq, Repr

/-- What `gh.Exec` hands back: standard output, standard error and the error. -/
structure ExecResult where
  stdOut : String
  stdErr : String
  err : Option GoError
deriving DecidableEq, Repr

/-- The external command runner `gh.Exec`, from its arguments to its result. -/
abbrev GhExec := List String → ExecResult

/-- The arguments `ListRuns` passes to `gh.Exec`. -/
def listRunsArgs (limit : Int) : List String :=
  ["run", "list", "--limit", strconv.FormatInt limit]

/-- The body of the loop of `ListRuns`: one line to one `RunData`, by the
positions of its tab-separated fields. -/
def parseRunLine (line : String) : Except GoPanic RunData := do
  let fields := strings.Split line '\t'
  let status ← index fields 0
  let title ← index fields 1
  let workflow ← index fields 2
  let branch ← index fields 3
  let event ← index fields 4
  let id ← index fields 5
  let elapsed ← index fields 6
  let age ← index fields 7
  return {
    Status := status, Title := title, Workflow := workflow, Branch := branch,
    Event := event, Id := id, Elapsed := elapsed, Age := age }

/-- The function `data.ListRuns`: runs `gh run list`, drops the first and the
last line of its output and parses the others; the error of the command is
returned next to the runs. -/
def ListRuns (gh : GhExec) (limit : Int) :
    Except GoPanic (List RunData × Option GoError) := do
  let r := gh (listRunsArgs limit)
  let output := r.stdOut
  let lines := strings.Split output '\n'
  let lines ← sliceFrom lines 1
  let lines ← sliceTo lines ((lines.length : Int) - 1)
  let runs ← lines.mapM parseRunLine
  return (runs, r.err)

/-! ## External libraries and the packages this section builds on -/

/-- The properties of a `lipgloss.Style` that the styles of this section set. -/
structure Style where
  paddingTop : Int := 0
  paddingRight : Int := 0
  paddingBottom : Int := 0
  paddingLeft : Int := 0
  marginBottom : Int := 0
  faint : Bool := false
  italic : Bool := false
deriving DecidableEq, Repr

/-- The constructor `lipgloss.NewStyle()`: nothing set. -/
def lipgloss.NewStyle : Style := {}

/-- The call `Style.Padding(v, h)` with two arguments: `v` above and below,
`h` on the left and on the right. -/
def Style.Padding (s : Style) (v h : Int) : Style :=
  { s with paddingTop := v, paddingBottom := v, paddingLeft := h, paddingRight := h }

/-- The getter `Style.GetHorizontalPadding()`: left plus right padding. -/
def Style.GetHorizontalPadding (s : Style) : Int :=
  wrapInt (s.paddingLeft + s.paddingRight)

/-- The state of a `spinner.Model` of the bubbles library. -/
structure SpinnerModel where
  Spinner : String
  frame : Int
deriving DecidableEq, Repr

/-- The message `spinner.TickMsg`. -/
structure SpinnerTickMsg where
  tag : Int
deriving DecidableEq, Repr

/-- A command of the spinner library: `spinner.Tick`, or what `Update` returns. -/
structure SpinnerCmd where
  tag : Int
deriving DecidableEq, Repr

/-- The command `spinner.Tick`. -/
def spinner.Tick : SpinnerCmd := { tag := 0 }

/-- The record `constants.Dimensions`. -/
structure Dimensions where
  Width : Int
  Height : Int
deriving DecidableEq, Repr

/-- The record `config.SectionConfig`; `Limit` is an optional pointer. -/
structure SectionConfig where
  Title : String
  Filters : String
  Limit : Option Int
deriving DecidableEq, Repr

/-- The record `config.PreviewConfig`. -/
structure PreviewConfig where
  Open : Bool
  Width : Int
deriving DecidableEq, Repr

/-- The record `config.Defaults`. -/
structure Defaults where
  Preview : PreviewConfig
  PrsLimit : Int
  IssuesLimit : Int
  RunsLimit : Int
  View : String
deriving DecidableEq, Repr

/-- The record `config.Config`, without the key bindings and repository paths,
which the runs section does not read. -/
structure Config where
  PRSections : List SectionConfig
  IssuesSections : List SectionConfig
  Defaults : Defaults
deriving DecidableEq, Repr

/-- The record `context.ProgramContext`. -/
structure ProgramContext where
  ScreenHeight : Int
  ScreenWidth : Int
  MainContentWidth : Int
  MainContentHeight : Int
  Config : Config
  View : String
deriving DecidableEq, Repr

/-- A non-nil `*context.ProgramContext`: the address of a program context. -/
abbrev CtxPtr := Nat

/-- The program contexts in memory, by address. -/
abbrev Heap := CtxPtr → ProgramContext

/-- The memory after the owner of the context at `p` has overwritten it in
place with `v`. -/
def Heap.set (heap : Heap) (p : CtxPtr) (v : ProgramContext) : Heap :=
  fun q => if q = p then v else heap q

/-- A `table.Column`: a title and a pointer to its width. -/
structure Column where
  Title : String
  Width : Option Int
deriving DecidableEq, Repr

/-- A `table.Row`: the rendered cells of one record. -/
abbrev Row := List String

/-- Modelled from the spec: the type `table.Model` of `ui/components/table`, of which
only the styles are among the sources. It holds the dimensions, the column
definitions, the current row sequence, the selection cursor and the empty-state
message; the cached viewport is represented by `syncCalls`, the number of times
`SyncViewPortContent` has recomputed it. -/
structure TableModel where
  Columns : List Column
  Rows : List Row
  EmptyState : Option String
  dimensions : Dimensions
  currItem : Int
  ItemTypeLabel : String
  syncCalls : Nat
deriving DecidableEq, Repr

/-- Modelled from the spec: the constructor `table.NewModel`, which stores its arguments
with the cursor on the first row. -/
def table.NewModel (dimensions : Dimensions) (columns : List Column) (rows : List Row)
    (itemTypeLabel : String) (emptyState : Option String) : TableModel :=
  { Columns := columns, Rows := rows, EmptyState := emptyState, dimensions := dimensions,
    currItem := 0, ItemTypeLabel := itemTypeLabel, syncCalls := 0 }

/-- Modelled from the spec: `SetDimensions` of the table replaces the dimensions and
does not by itself resync the viewport. -/
def TableModel.SetDimensions (t : TableModel) (d : Dimensions) : TableModel :=
  { t with dimensions := d }

/-- Modelled from the spec: `SyncViewPortContent` of the table recomputes the rendered
viewport; each invocation is counted. -/
def TableModel.SyncViewPortContent (t : TableModel) : TableModel :=
  { t with syncCalls := t.syncCalls + 1 }

/-- Modelled from the spec: `ResetCurrItem` of the table puts the cursor on row 0. -/
def TableModel.ResetCurrItem (t : TableModel) : TableModel :=
  { t with currItem := 0 }

/-- The functions of other libraries that the section calls and whose results it
only passes on. -/
structure Env where
  /-- The method `lipgloss.Style.Render`. -/
  Render : Style → String → String
  /-- The function `lipgloss.JoinHorizontal(lipgloss.Top, ...)`. -/
  JoinHorizontal : List String → String
  /-- The function `lipgloss.Width`. -/
  Width : String → Int
  /-- The method `spinner.Model.View`. -/
  spinnerView : SpinnerModel → String
  /-- The method `spinner.Model.Update`, with its optional follow-up command. -/
  spinnerUpdate : SpinnerModel → SpinnerTickMsg → SpinnerModel × Option SpinnerCmd
  /-- The method `table.Model.View`, given the optional overlay text. -/
  tableView : TableModel → Option String → String

/-- Modelled from the spec: the type `section.Model` of `ui/components/section`, absent
from the sources: the numeric id, the configuration, the program context, the
table, the loading flag, the spinner state and the kind of the section. -/
structure SectionModel where
  Id : Int
  Config : SectionConfig
  Ctx : CtxPtr
  Spinner : SpinnerModel
  IsLoading : Bool
  Type_ : String
  Table : TableModel
deriving DecidableEq, Repr

/-! ## runssection/styles.go -/

/-- The variable `ContainerPadding`. -/
def ContainerPadding : Int := 1

/-- The variable `branchCellWidth`. -/
def branchCellWidth : Int := 50

/-- The variable `titleCellWidth`. -/
def titleCellWidth (env : Env) : Int := env.Width "vxx.xxx.xxx Release to Production"

/-- The variable `statusCellWidth`. -/
def statusCellWidth (env : Env) : Int := env.Width "completed success"

/-- The variable `workflowCellWidth`. -/
def workflowCellWidth (env : Env) : Int := env.Width "Test, Build & Deploy to ECS"

/-- The style `containerStyle`. -/
def containerStyle : Style := lipgloss.NewStyle.Padding 0 ContainerPadding

/-- The style `spinnerStyle`. -/
def spinnerStyle : Style := lipgloss.NewStyle.Padding 0 1

/-- The style `emptyStateStyle`. -/
def emptyStateStyle : Style :=
  { lipgloss.NewStyle with faint := true, paddingLeft := 1, marginBottom := 1 }

/-! ## runssection/runssection.go -/

/-- The constant `SectionType`. -/
def SectionType : String := "runs"

/-- The type `runssection.Model`. -/
structure Model where
  Runs : List RunData
  section_ : SectionModel
  error : Option GoError
deriving DecidableEq, Repr

/-- The message `SectionRunsFetchedMsg`. -/
structure SectionRunsFetchedMsg where
  SectionId : Int
  Runs : List RunData
  Err : Option GoError
deriving DecidableEq, Repr

/-- The message `section.SectionTickMsg`. -/
structure SectionTickMsg where
  SectionId : Int
  InternalTickMsg : SpinnerTickMsg
  Type_ : String
deriving DecidableEq, Repr

/-- The messages `Update` distinguishes; `other` is any other `tea.Msg`. -/
inductive Msg where
  | runsFetched (msg : SectionRunsFetchedMsg)
  | tick (msg : SectionTickMsg)
  | other
deriving DecidableEq, Repr

/-- A non-nil `tea.Cmd`: a command of the spinner, the next-tick command of a
section around an inner command, a closure that performs the fetch, reading the
memory and the section it captured through its pointer when it runs, or a
batch. -/
inductive Cmd where
  | spinner (c : SpinnerCmd)
  | nextTick (sectionId : Int) (sectionType : String) (inner : Cmd)
  | fetch (run : Heap → Model → GhExec → Except GoPanic Msg)
  | batch (cmds : List (Option Cmd))

/-- Modelled from the spec: `CreateNextTickCmd` of `section.Model`, absent from the
sources: the self-rescheduling tick, tagged with the section, around the given
command; no command when there is none to wrap. -/
def SectionModel.CreateNextTickCmd (s : SectionModel) (nextTickCmd : Option Cmd) :
    Option Cmd :=
  nextTickCmd.map (Cmd.nextTick s.Id s.Type_)

/-- The function `tea.Batch`. -/
def tea.Batch (cmds : List (Option Cmd)) : Option Cmd := some (Cmd.batch cmds)

/-- The method `getDimensions`: the context is read through the pointer the
section holds. -/
def Model.getDimensions (heap : Heap) (m : Model) : Dimensions :=
  { Width :=
      wrapInt ((heap m.section_.Ctx).MainContentWidth - containerStyle.GetHorizontalPadding),
    Height := wrapInt ((heap m.section_.Ctx).MainContentHeight - 2) }

/-- The method `GetSectionColumns`. -/
def GetSectionColumns (env : Env) : List Column :=
  [ { Title := "Title", Width := some (titleCellWidth env) },
    { Title := "Status", Width := some (statusCellWidth env) },
    { Title := "Workflow", Width := some (workflowCellWidth env) },
    { Title := "Branch", Width := some branchCellWidth } ]

/-- The method `BuildRows`: a row slice of length 0 (and capacity `len(m.Runs)`),
returned as allocated. -/
def Model.BuildRows (_m : Model) : List Row := []

/-- The empty-state text built in `NewModel` and in `Update`. -/
def emptyStateText (env : Env) (config : SectionConfig) : String :=
  env.Render emptyStateStyle
    ("No runs were found that match the given filters: " ++
      env.Render { lipgloss.NewStyle with italic := true } config.Filters)

/-- The constructor `NewModel`. -/
def NewModel (env : Env) (heap : Heap) (id : Int) (ctx : CtxPtr) (config : SectionConfig) :
    Model :=
  let m : Model :=
    { Runs := [],
      section_ :=
        { Id := id, Config := config, Ctx := ctx,
          Spinner := { Spinner := "Dot", frame := 0 },
          IsLoading := true, Type_ := SectionType,
          Table := table.NewModel ⟨0, 0⟩ [] [] "" none },
      error := none }
  { m with
    section_ :=
      { m.section_ with
        Table := table.NewModel (m.getDimensions heap) (GetSectionColumns env) m.BuildRows "Run"
          (some (emptyStateText env m.section_.Config)) } }

/-- The type `Run`. -/
structure Run where
  Data : RunData
  Width : Int
deriving DecidableEq, Repr

/-- The method `renderTitle`. -/
def Run.renderTitle (env : Env) (run : Run) : String :=
  env.Render lipgloss.NewStyle run.Data.Title

/-- The method `renderStatus`. -/
def Run.renderStatus (env : Env) (run : Run) : String :=
  env.Render lipgloss.NewStyle run.Data.Status

/-- The method `renderWorkflow`. -/
def Run.renderWorkflow (env : Env) (run : Run) : String :=
  env.Render lipgloss.NewStyle run.Data.Workflow

/-- The method `renderBranch`. -/
def Run.renderBranch (env : Env) (run : Run) : String :=
  env.Render lipgloss.NewStyle run.Data.Branch

/-- The method `renderEvent`. -/
def Run.renderEvent (env : Env) (run : Run) : String :=
  env.Render lipgloss.NewStyle run.Data.Event

/-- The method `renderId`. -/
def Run.renderId (env : Env) (run : Run) : String :=
  env.Render lipgloss.NewStyle run.Data.Id

/-- The method `renderElapsed`. -/
def Run.renderElapsed (env : Env) (run : Run) : String :=
  env.Render lipgloss.NewStyle run.Data.Elapsed

/-- The method `renderAge`. -/
def Run.renderAge (env : Env) (run : Run) : String :=
  env.Render lipgloss.NewStyle run.Data.Age

/-- The method `ToTableRow`. -/
def Run.ToTableRow (env : Env) (run : Run) : Row :=
  [ run.renderTitle env, run.renderStatus env, run.renderWorkflow env, run.renderBranch env,
    run.renderEvent env, run.renderId env, run.renderElapsed env, run.renderAge env ]

/-- The limit the fetch closure passes to `ListRuns`: the one of the section's
configuration, or the default of the program configuration. -/
def Model.fetchLimit (heap : Heap) (m : Model) : Int :=
  match m.section_.Config.Limit with
  | some limit => limit
  | none => (heap m.section_.Ctx).Config.Defaults.RunsLimit

/-- The closure that `FetchSectionRows` hands to the event loop; `heap` and `m`
are the memory and the section it captured, as they are when the closure
runs. -/
def fetchRunsCmd (heap : Heap) (m : Model) (gh : GhExec) : Except GoPanic Msg := do
  let limit := m.fetchLimit heap
  let (fetchedRuns, err) ← ListRuns gh limit
  match err with
  | some e =>
    return .runsFetched { SectionId := m.section_.Id, Runs := [], Err := some e }
  | none =>
    return .runsFetched { SectionId := m.section_.Id, Runs := fetchedRuns, Err := none }

/-- The method `FetchSectionRows`, on a non-nil receiver: the section after the
call and the command returned. -/
def Model.FetchSectionRows (m : Model) : Model × Option Cmd :=
  let m := { m with error := none }
  let m := { m with Runs := [] }
  let m := { m with section_ := { m.section_ with Table := m.section_.Table.ResetCurrItem } }
  let m := { m with section_ := { m.section_ with Table := { m.section_.Table with Rows := [] } } }
  let m := { m with section_ := { m.section_ with IsLoading := true } }
  let cmds : List (Option Cmd) := []
  let cmds := cmds ++ [m.section_.CreateNextTickCmd (some (Cmd.spinner spinner.Tick))]
  let cmds := cmds ++ [some (Cmd.fetch fetchRunsCmd)]
  (m, tea.Batch cmds)

/-- The method `GetIsLoading`. -/
def Model.GetIsLoading (m : Model) : Bool := m.section_.IsLoading

/-- The method `Id`. -/
def Model.Id (m : Model) : Int := m.section_.Id

/-- The method `NumRows`. -/
def Model.NumRows (m : Model) : Int := m.Runs.length

/-- The method `UpdateProgramContext`: `heap` is the memory at the time of the
call, through which both the pointer the section holds and the new pointer are
read. -/
def Model.UpdateProgramContext (heap : Heap) (m : Model) (ctx : CtxPtr) : Model :=
  let oldDimensions := m.getDimensions heap
  let m := { m with section_ := { m.section_ with Ctx := ctx } }
  let newDimensions := m.getDimensions heap
  let m := { m with
    section_ := { m.section_ with Table := m.section_.Table.SetDimensions newDimensions } }
  if oldDimensions.Height ≠ newDimensions.Height ∨ oldDimensions.Width ≠ newDimensions.Width then
    { m with section_ := { m.section_ with Table := m.section_.Table.SyncViewPortContent } }
  else m

/-- The overlay text `spinnerText` that `View` hands to the table. -/
def Model.spinnerText (env : Env) (m : Model) : Option String :=
  let spinnerText : Option String :=
    if m.section_.IsLoading then
      some (env.JoinHorizontal
        [env.Render spinnerStyle (env.spinnerView m.section_.Spinner),
          "Fetching Workflow Runs..."])
    else none
  match m.error with
  | some e => some ("Error while fetching workflow runs: " ++ e.Error)
  | none => spinnerText

/-- The method `View`. -/
def Model.View (env : Env) (m : Model) : String :=
  env.Render containerStyle (env.tableView m.section_.Table (m.spinnerText env))

/-- The method `Update`: the section returned and the follow-up command. -/
def Model.Update (env : Env) (m : Model) (msg : Msg) : Model × Option Cmd :=
  match msg with
  | .runsFetched msg =>
    let m := { m with Runs := msg.Runs }
    let m := { m with section_ := { m.section_ with IsLoading := false } }
    let m := { m with
      section_ := { m.section_ with Table := { m.section_.Table with Rows := m.BuildRows } } }
    let m := { m with
      section_ :=
        { m.section_ with
          Table :=
            { m.section_.Table with EmptyState := some (emptyStateText env m.section_.Config) } } }
    (m, none)
  | .tick msg =>
    if !m.section_.IsLoading then (m, none)
    else
      let (spinner, internalTickCmd) := env.spinnerUpdate m.section_.Spinner msg.InternalTickMsg
      let m := { m with section_ := { m.section_ with Spinner := spinner } }
      (m, m.section_.CreateNextTickCmd (internalTickCmd.map Cmd.spinner))
  | .other => (m, none)

/-- A sample environment: rendering leaves the text as it is. -/
def Env.plain : Env :=
  { Render := fun _ s => s
    JoinHorizontal := String.join
    Width := fun s => s.length
    spinnerView := fun _ => "."
    spinnerUpdate := fun s _ => ({ s with frame := s.frame + 1 }, some spinner.Tick)
    tableView := fun t overlay =>
      match overlay with
      | some text => text
      | none => String.intercalate "\n" (t.Rows.map (String.intercalate " ")) }


/-- The text of lines that each end in a newline. -/
def linesText : List String → String
  | [] => ""
  | l :: ls => l ++ "\n" ++ linesText ls

/-- The output of the command: a header line and data lines, each ended by a
newline. -/
def runListOutput (header : String) (lines : List String) : String :=
  header ++ "\n" ++ linesText lines

/-- The fields 0 to 7 of a line, in the order `ListRuns` reads them, are the
components of a run. -/
def HasFields (line : String) (r : RunData) : Prop :=
  (strings.Split line '\t')[0]? = some r.Status ∧
  (strings.Split line '\t')[1]? = some r.Title ∧
  (strings.Split line '\t')[2]? = some r.Workflow ∧
  (strings.Split line '\t')[3]? = some r.Branch ∧
  (strings.Split line '\t')[4]? = some r.Event ∧
  (strings.Split line '\t')[5]? = some r.Id ∧
  (strings.Split line '\t')[6]? = some r.Elapsed ∧
  (strings.Split line '\t')[7]? = some r.Age

/-- The field of a run record that a column title names. -/
def RunData.field (r : RunData) (title : String) : Option String :=
  if title = "Status" then some r.Status
  else if title = "Title" then some r.Title
  else if title = "Workflow" then some r.Workflow
  else if title = "Branch" then some r.Branch
  else if title = "Event" then some r.Event
  else if title = "Id" then some r.Id
  else if title = "Elapsed" then some r.Elapsed
  else if title = "Age" then some r.Age
  else none

/-! ## Sample values -/

/-- A program configuration with the default limits of the parser. -/
def sampleConfig : Config :=
  { PRSections := [], IssuesSections := [],
    Defaults :=
      { Preview := { Open := true, Width := 50 }, PrsLimit := 20, IssuesLimit := 20,
        RunsLimit := 20, View := "prs" } }

/-- A program context for an 80 by 24 main content area. -/
def sampleCtx : ProgramContext :=
  { ScreenHeight := 30, ScreenWidth := 80, MainContentWidth := 80, MainContentHeight := 24,
    Config := sampleConfig, View := "prs" }

/-- A program context whose main content area has no extent. -/
def emptyCtx : ProgramContext :=
  { ScreenHeight := 0, ScreenWidth := 0, MainContentWidth := 0, MainContentHeight := 0,
    Config := sampleConfig, View := "prs" }

/-- A program context for a 100 by 30 main content area. -/
def wideCtx : ProgramContext :=
  { ScreenHeight := 36, ScreenWidth := 100, MainContentWidth := 100, MainContentHeight := 30,
    Config := sampleConfig, View := "prs" }

/-- A memory in which every context is the 80 by 24 one. -/
def sampleHeap : Heap := fun _ => sampleCtx

/-- The memory `sampleHeap` after the owner of the context at address 0 has
resized it in place to 100 by 30. -/
def resizedHeap : Heap := sampleHeap.set 0 wideCtx

/-- A memory in which every context has no extent. -/
def emptyHeap : Heap := fun _ => emptyCtx

/-- A section configuration without a limit of its own. -/
def sampleSectionConfig : SectionConfig :=
  { Title := "Runs", Filters := "branch:main", Limit := none }

/-- A run record. -/
def sampleRun : RunData :=
  { Status := "completed", Title := "Release", Workflow := "CI", Branch := "main",
    Event := "push", Id := "42", Elapsed := "1m", Age := "2h" }

/-- A freshly built section, with id 7, on the context at address 0. -/
def sampleModel : Model := NewModel Env.plain sampleHeap 7 0 sampleSectionConfig

/-- A section that holds one run and one table row and is not loading. -/
def loadedModel : Model :=
  { sampleModel with
    Runs := [sampleRun],
    section_ :=
      { sampleModel.section_ with
        IsLoading := false,
        Table :=
          { sampleModel.section_.Table with
            Rows := [Run.ToTableRow Env.plain { Data := sampleRun, Width := 0 }] } } }

/-- The error of a failed fetch. -/
def timeoutError : GoError := { Error := "network timeout" }

/-- A run of the command that fails and writes nothing to standard output. -/
def ghFailsSilently : GhExec := fun _ => { stdOut := "", stdErr := "", err := some timeoutError }

/-- A run of the command that fails and prints one line without a newline. -/
def ghFailsOneLine : GhExec := fun _ =>
  { stdOut := "could not determine base repo", stdErr := "", err := some timeoutError }

/-- A run of the command that prints a header and one run. -/
def ghOneRun : GhExec := fun _ =>
  { stdOut := "STATUS\tTITLE\ncompleted\tRelease\tCI\tmain\tpush\t42\t1m\t2h\n",
    stdErr := "", err := none }

theorem splitChars_ne_nil (sep : Char) (cs : List Char) : splitChars sep cs ≠ [] := by
  induction cs with
  | nil => simp [splitChars]
  | cons c cs ih =>
    unfold splitChars
    split
    · simp
    · split <;> simp

theorem splitChars_append_sep (sep : Char) (l rest : List Char) (h : sep ∉ l) :
    splitChars sep (l ++ sep :: rest) = l :: splitChars sep rest := by
  induction l with
  | nil => simp [splitChars]
  | cons c cs ih =>
    have hc : c ≠ sep := fun e => h (by simp [e])
    have hcs : sep ∉ cs := fun e => h (by simp [e])
    have ih2 := ih hcs
    rw [List.cons_append, splitChars, if_neg hc, ih2]

theorem splitChars_linesText (ls : List String) (h : ∀ l ∈ ls, '\n' ∉ l.data) :
    splitChars '\n' (linesText ls).data = ls.map String.data ++ [[]] := by
  induction ls with
  | nil => simp [linesText, splitChars]
  | cons l ls ih =>
    have h1 : '\n' ∉ l.data := h l (by simp)
    have h2 : ∀ x ∈ ls, '\n' ∉ x.data := fun x hx => h x (by simp [hx])
    have e : (linesText (l :: ls)).data = l.data ++ '\n' :: (linesText ls).data := by
      simp [linesText, String.data_append]
    rw [e, splitChars_append_sep _ _ _ h1, ih h2]
    simp

theorem Split_runListOutput (header : String) (lines : List String)
    (hh : '\n' ∉ header.data) (hl : ∀ l ∈ lines, '\n' ∉ l.data) :
    strings.Split (runListOutput header lines) '\n' = header :: (lines ++ [""]) := by
  have e : (runListOutput header lines).data = header.data ++ '\n' :: (linesText lines).data := by
    simp [runListOutput, String.data_append]
  unfold strings.Split
  rw [e, splitChars_append_sep _ _ _ hh, splitChars_linesText _ hl]
  simp [List.map_map, Function.comp_def]

theorem parseRunLine_ok (l : String) (h : 8 ≤ (strings.Split l '\t').length) :
    ∃ r, parseRunLine l = .ok r ∧ HasFields l r := by
  unfold parseRunLine HasFields
  generalize strings.Split l '\t' = fs at h
  rcases fs with _ | ⟨a0, _ | ⟨a1, _ | ⟨a2, _ | ⟨a3, _ | ⟨a4, _ | ⟨a5, _ | ⟨a6, _ | ⟨a7, fs⟩⟩⟩⟩⟩⟩⟩⟩ <;>
    simp at h
  exact ⟨⟨a0, a1, a2, a3, a4, a5, a6, a7⟩, by simp [index, bind, Except.bind, pure, Except.pure], by simp⟩

theorem mapM_parseRunLine (lines : List String)
    (h : ∀ l ∈ lines, 8 ≤ (strings.Split l '\t').length) :
    ∃ runs, lines.mapM parseRunLine = .ok runs ∧ List.Forall₂ HasFields lines runs := by
  induction lines with
  | nil => exact ⟨[], rfl, List.Forall₂.nil⟩
  | cons l ls ih =>
    obtain ⟨r, hr, hf⟩ := parseRunLine_ok l (h l (by simp))
    obtain ⟨rs, hrs, hfs⟩ := ih (fun x hx => h x (by simp [hx]))
    refine ⟨r :: rs, ?_, List.Forall₂.cons hf hfs⟩
    rw [List.mapM_cons, hr, hrs]
    rfl

/-! ## The parser of the command output -/

/-- C9: when the command prints a header line and N data lines, each ended by a
newline and each data line with at least 8 tab-separated fields, `ListRuns`
returns N runs, in the order of the data lines, whose components are the
fields 0 to 7 of their line, together with the error of the command. -/
theorem ListRuns_header_and_lines (gh : GhExec) (limit : Int) (header : String)
    (lines : List String)
    (hout : (gh (listRunsArgs limit)).stdOut = runListOutput header lines)
    (hh : '\n' ∉ header.data)
    (hl : ∀ l ∈ lines, '\n' ∉ l.data ∧ 8 ≤ (strings.Split l '\t').length) :
    ∃ runs, ListRuns gh limit = .ok (runs, (gh (listRunsArgs limit)).err) ∧
      runs.length = lines.length ∧ List.Forall₂ HasFields lines runs := by
  obtain ⟨runs, hruns, hf⟩ := mapM_parseRunLine lines (fun l hm => (hl l hm).2)
  refine ⟨runs, ?_, hf.length_eq.symm, hf⟩
  have hs := Split_runListOutput header lines hh (fun l hm => (hl l hm).1)
  have h1 : sliceFrom (header :: (lines ++ [""])) 1 = .ok (lines ++ [""]) := by
    have : (0 : Int) ≤ (lines.length : Int) + 1 := by omega
    simp [sliceFrom, this]
  have h2 : sliceTo (lines ++ [""]) (((lines ++ [""]).length : Int) - 1) = .ok lines := by
    simp [sliceTo]
  unfold ListRuns
  simp only [hout, hs, h1, h2, hruns, bind, Except.bind, pure, Except.pure]

/-- C9, on a header and one data line. -/
theorem ListRuns_header_and_lines_witness :
    ∃ runs, ListRuns ghOneRun 20 = .ok (runs, none) ∧
      runs.length = 1 ∧
      List.Forall₂ HasFields ["completed\tRelease\tCI\tmain\tpush\t42\t1m\t2h"] runs :=
  ListRuns_header_and_lines ghOneRun 20 "STATUS\tTITLE"
    ["completed\tRelease\tCI\tmain\tpush\t42\t1m\t2h"] (by rfl) (by decide) (by decide)

/-- C5: the command fails and prints nothing, or one line without a newline;
`ListRuns` panics on the slice bound instead of returning the error, and so
does the fetch closure. -/
theorem ListRuns_panics_on_silent_failure :
    (ghFailsSilently (listRunsArgs 20)).err = some timeoutError ∧
    ListRuns ghFailsSilently 20 = .error .sliceBoundsOutOfRange ∧
    fetchRunsCmd sampleHeap sampleModel ghFailsSilently = .error .sliceBoundsOutOfRange ∧
    ListRuns ghFailsOneLine 20 = .error .sliceBoundsOutOfRange := by
  refine ⟨rfl, ?_, ?_, ?_⟩ <;> rfl

/-! ## Dimensions -/

theorem containerStyle_horizontalPadding : containerStyle.GetHorizontalPadding = 2 := by
  decide

theorem wrapInt_of_inRange (x : Int) (h1 : -(2 ^ 63) ≤ x) (h2 : x < 2 ^ 63) : wrapInt x = x := by
  unfold wrapInt
  omega

/-- C4, as the code has it: the dimensions are the main content width less the
horizontal padding of the container (2) and the main content height less 2,
without a floor at 0; while the subtraction stays inside the range of a Go int
they are both non-negative exactly when the width and the height of the main
content are both at least 2. -/
theorem getDimensions_nonneg_iff (heap : Heap) (m : Model)
    (hw1 : -(2 ^ 63) + 2 ≤ (heap m.section_.Ctx).MainContentWidth)
    (hw2 : (heap m.section_.Ctx).MainContentWidth < 2 ^ 63)
    (hh1 : -(2 ^ 63) + 2 ≤ (heap m.section_.Ctx).MainContentHeight)
    (hh2 : (heap m.section_.Ctx).MainContentHeight < 2 ^ 63) :
    (m.getDimensions heap).Width = (heap m.section_.Ctx).MainContentWidth - 2 ∧
    (m.getDimensions heap).Height = (heap m.section_.Ctx).MainContentHeight - 2 ∧
    ((0 ≤ (m.getDimensions heap).Width ∧ 0 ≤ (m.getDimensions heap).Height) ↔
      (2 ≤ (heap m.section_.Ctx).MainContentWidth ∧
        2 ≤ (heap m.section_.Ctx).MainContentHeight)) := by
  have ew : (m.getDimensions heap).Width = (heap m.section_.Ctx).MainContentWidth - 2 := by
    simp only [Model.getDimensions, containerStyle_horizontalPadding]
    exact wrapInt_of_inRange _ (by omega) (by omega)
  have eh : (m.getDimensions heap).Height = (heap m.section_.Ctx).MainContentHeight - 2 := by
    simp only [Model.getDimensions]
    exact wrapInt_of_inRange _ (by omega) (by omega)
  refine ⟨ew, eh, ?_⟩
  rw [ew, eh]
  omega

/-- C4, as the code has it, on an 80 by 24 main content area. -/
theorem getDimensions_nonneg_iff_witness :
    (sampleModel.getDimensions sampleHeap).Width = 80 - 2 ∧
    (sampleModel.getDimensions sampleHeap).Height = 24 - 2 ∧
    ((0 ≤ (sampleModel.getDimensions sampleHeap).Width ∧
        0 ≤ (sampleModel.getDimensions sampleHeap).Height) ↔
      ((2 : Int) ≤ 80 ∧ (2 : Int) ≤ 24)) :=
  getDimensions_nonneg_iff sampleHeap sampleModel (by decide) (by decide) (by decide)
    (by decide)

/-- C4 fails as stated: on a main content area of width 0 and height 0 the
dimensions are -2 by -2. -/
theorem getDimensions_negative :
    ((NewModel Env.plain emptyHeap 7 0 sampleSectionConfig).getDimensions emptyHeap).Width
      = -2 ∧
    ((NewModel Env.plain emptyHeap 7 0 sampleSectionConfig).getDimensions emptyHeap).Height
      = -2 ∧
    ¬ (0 ≤ ((NewModel Env.plain emptyHeap 7 0 sampleSectionConfig).getDimensions
            emptyHeap).Width ∧
        0 ≤ ((NewModel Env.plain emptyHeap 7 0 sampleSectionConfig).getDimensions
            emptyHeap).Height) := by
  decide

/-! ## Rows and columns -/

/-- C10: the row of a run has 8 cells where the section declares 4 columns, so
the two lengths differ; the cells do follow the order of the columns, the cell
at the position of each declared column being the rendering of the record
field that the title of the column names, and the last four cells stand under
no column. -/
theorem ToTableRow_cells_under_columns (env : Env) (run : Run) :
    (run.ToTableRow env).length = 8 ∧
    (GetSectionColumns env).length = 4 ∧
    (run.ToTableRow env).length ≠ (GetSectionColumns env).length ∧
    ∀ (i : Nat) (col : Column), (GetSectionColumns env)[i]? = some col →
      ∃ v, run.Data.field col.Title = some v ∧
        (run.ToTableRow env)[i]? = some (env.Render lipgloss.NewStyle v) := by
  refine ⟨rfl, rfl, by simp [Run.ToTableRow, GetSectionColumns], ?_⟩
  intro i col h
  match i, h with
  | 0, h =>
    simp only [GetSectionColumns, List.getElem?_cons_zero, Option.some.injEq] at h
    subst h
    exact ⟨run.Data.Title, by simp [RunData.field], rfl⟩
  | 1, h =>
    simp only [GetSectionColumns, List.getElem?_cons_succ, List.getElem?_cons_zero,
      Option.some.injEq] at h
    subst h
    exact ⟨run.Data.Status, by simp [RunData.field], rfl⟩
  | 2, h =>
    simp only [GetSectionColumns, List.getElem?_cons_succ, List.getElem?_cons_zero,
      Option.some.injEq] at h
    subst h
    exact ⟨run.Data.Workflow, by simp [RunData.field], rfl⟩
  | 3, h =>
    simp only [GetSectionColumns, List.getElem?_cons_succ, List.getElem?_cons_zero,
      Option.some.injEq] at h
    subst h
    exact ⟨run.Data.Branch, by simp [RunData.field], rfl⟩
  | n + 4, h =>
    simp [GetSectionColumns] at h

/-- C1: after a successful fetch message the section counts the fetched runs,
but `BuildRows` returns no row and the table is left without rows, whatever
the runs are. -/
theorem Update_runsFetched_builds_no_rows (env : Env) (m : Model)
    (msg : SectionRunsFetchedMsg) :
    (m.Update env (.runsFetched msg)).1.NumRows = msg.Runs.length ∧
    (m.Update env (.runsFetched msg)).1.BuildRows = [] ∧
    (m.Update env (.runsFetched msg)).1.section_.Table.Rows = [] := by
  simp [Model.Update, Model.NumRows, Model.BuildRows]

/-- C2: a fetch message that carries an error leaves the error field of every
section as it was; a fresh section is left without an error: it stops loading,
and its view hands the table no overlay text. -/
theorem Update_runsFetched_drops_error (env : Env) (heap : Heap) (m : Model) (id : Int)
    (ctx : CtxPtr) (config : SectionConfig) (e : GoError) :
    (m.Update env (.runsFetched { SectionId := id, Runs := [], Err := some e })).1.error
      = m.error ∧
    ((NewModel env heap id ctx config).Update env
      (.runsFetched { SectionId := id, Runs := [], Err := some e })).1.error = none ∧
    ((NewModel env heap id ctx config).Update env
      (.runsFetched { SectionId := id, Runs := [], Err := some e })).1.section_.IsLoading = false ∧
    ((NewModel env heap id ctx config).Update env
      (.runsFetched { SectionId := id, Runs := [], Err := some e })).1.spinnerText env = none := by
  simp [Model.Update, NewModel, Model.spinnerText]

/-- C3, as the code has it: after the message of a failed fetch the section
holds the empty run list of the message, counts 0 rows and its table has no
rows; these are the runs and rows it held before exactly when it held none. -/
theorem Update_fetch_failure_empties_rows (env : Env) (m : Model) (id : Int) (e : GoError) :
    (m.Update env (.runsFetched { SectionId := id, Runs := [], Err := some e })).1.Runs = [] ∧
    (m.Update env (.runsFetched { SectionId := id, Runs := [], Err := some e })).1.NumRows = 0 ∧
    (m.Update env
      (.runsFetched { SectionId := id, Runs := [], Err := some e })).1.section_.Table.Rows = [] ∧
    (((m.Update env (.runsFetched { SectionId := id, Runs := [], Err := some e })).1.Runs
          = m.Runs ∧
        (m.Update env (.runsFetched { SectionId := id, Runs := [], Err := some e })).1.NumRows
          = m.NumRows ∧
        (m.Update env
          (.runsFetched { SectionId := id, Runs := [], Err := some e })).1.section_.Table.Rows
          = m.section_.Table.Rows) ↔
      (m.Runs = [] ∧ m.section_.Table.Rows = [])) := by
  refine ⟨rfl, rfl, rfl, ?_⟩
  simp only [Model.Update, Model.NumRows, Model.BuildRows]
  constructor
  · rintro ⟨h1, -, h3⟩
    exact ⟨h1.symm, h3.symm⟩
  · rintro ⟨h1, h3⟩
    simp [h1, h3]

/-- C3 fails as stated: a section that holds one run and one table row holds
none after the message of a failed fetch. -/
theorem Update_fetch_failure_loses_rows :
    loadedModel.NumRows = 1 ∧
    (loadedModel.Update Env.plain
      (.runsFetched { SectionId := 7, Runs := [], Err := some timeoutError })).1.NumRows = 0 ∧
    (loadedModel.Update Env.plain
      (.runsFetched { SectionId := 7, Runs := [], Err := some timeoutError })).1.Runs
        ≠ loadedModel.Runs ∧
    (loadedModel.Update Env.plain
      (.runsFetched { SectionId := 7, Runs := [], Err := some timeoutError })).1.section_.Table.Rows
        ≠ loadedModel.section_.Table.Rows := by
  decide

/-! ## Context changes, ticks and the fetch command -/

/-- C6, as the code has it: `UpdateProgramContext` stores the new context
pointer, calls `SetDimensions` on the table with the dimensions resolved from
the new context, and then calls `SyncViewPortContent` once when the width or
the height so resolved differs from the one resolved, at the time of the call,
from the context the section held, and not at all when both are the same; in
particular it makes no such call when the new context is the instance the
section already holds, whatever has been written to it in place. -/
theorem UpdateProgramContext_syncs_on_change (heap : Heap) (m : Model) (ctx : CtxPtr) :
    (m.UpdateProgramContext heap ctx).section_.Ctx = ctx ∧
    (m.UpdateProgramContext heap ctx).section_.Table
      = (if ((m.UpdateProgramContext heap ctx).getDimensions heap).Width
              ≠ (m.getDimensions heap).Width ∨
            ((m.UpdateProgramContext heap ctx).getDimensions heap).Height
              ≠ (m.getDimensions heap).Height
          then (m.section_.Table.SetDimensions
            ((m.UpdateProgramContext heap ctx).getDimensions heap)).SyncViewPortContent
          else m.section_.Table.SetDimensions
            ((m.UpdateProgramContext heap ctx).getDimensions heap)) ∧
    (m.UpdateProgramContext heap ctx).section_.Table.dimensions
      = (m.UpdateProgramContext heap ctx).getDimensions heap ∧
    (m.UpdateProgramContext heap ctx).section_.Table.syncCalls
      = m.section_.Table.syncCalls +
        (if ((m.UpdateProgramContext heap ctx).getDimensions heap).Width
              ≠ (m.getDimensions heap).Width ∨
            ((m.UpdateProgramContext heap ctx).getDimensions heap).Height
              ≠ (m.getDimensions heap).Height
          then 1 else 0) ∧
    (m.UpdateProgramContext heap m.section_.Ctx).section_.Table.syncCalls
      = m.section_.Table.syncCalls := by
  refine ⟨?_, ?_, ?_, ?_, ?_⟩
  · simp only [Model.UpdateProgramContext]
    split_ifs <;> rfl
  · simp only [Model.UpdateProgramContext, Model.getDimensions]
    split_ifs with h1 h2 h2
    · rfl
    · exact absurd (h1.elim (fun h => Or.inr (Ne.symm h)) (fun h => Or.inl (Ne.symm h))) h2
    · exact absurd (h2.elim (fun h => Or.inr (Ne.symm h)) (fun h => Or.inl (Ne.symm h))) h1
    · rfl
  · simp only [Model.UpdateProgramContext, Model.getDimensions]
    split_ifs <;> rfl
  · simp only [Model.UpdateProgramContext, Model.getDimensions]
    split_ifs with h1 h2 h2
    · rfl
    · exact absurd (h1.elim (fun h => Or.inr (Ne.symm h)) (fun h => Or.inl (Ne.symm h))) h2
    · exact absurd (h2.elim (fun h => Or.inr (Ne.symm h)) (fun h => Or.inl (Ne.symm h))) h1
    · rfl
  · simp [Model.UpdateProgramContext, Model.getDimensions, TableModel.SetDimensions]

/-- C6 fails as stated: a section built on an 80 by 24 context resolved 78 by
22; its owner resizes that context in place to 100 by 30 and passes it again;
the dimensions resolved and given to the table are now 98 by 28, yet
`SyncViewPortContent` is not called, the previous dimensions being read from
the context as it is at the call. -/
theorem UpdateProgramContext_same_instance_no_sync :
    sampleModel.section_.Ctx = 0 ∧
    sampleModel.getDimensions sampleHeap = { Width := 78, Height := 22 } ∧
    sampleModel.section_.Table.dimensions = { Width := 78, Height := 22 } ∧
    (sampleModel.UpdateProgramContext resizedHeap 0).getDimensions resizedHeap
      = { Width := 98, Height := 28 } ∧
    (sampleModel.UpdateProgramContext resizedHeap 0).section_.Table.dimensions
      = { Width := 98, Height := 28 } ∧
    sampleModel.section_.Table.syncCalls = 0 ∧
    (sampleModel.UpdateProgramContext resizedHeap 0).section_.Table.syncCalls = 0 := by
  decide

/-- C7: a tick delivered to a section that is not loading returns the section as
it was, hence with the same view, and no follow-up command. -/
theorem Update_tick_when_not_loading (env : Env) (m : Model) (msg : SectionTickMsg)
    (h : m.section_.IsLoading = false) :
    m.Update env (.tick msg) = (m, none) ∧
    (m.Update env (.tick msg)).1.View env = m.View env := by
  have e : m.Update env (.tick msg) = (m, none) := by
    simp [Model.Update, h]
  exact ⟨e, by rw [e]⟩

/-- C7, on a section that holds one run and is not loading. -/
theorem Update_tick_when_not_loading_witness :
    loadedModel.Update Env.plain
        (.tick { SectionId := 7, InternalTickMsg := { tag := 0 }, Type_ := "runs" })
      = (loadedModel, none) ∧
    (loadedModel.Update Env.plain
        (.tick { SectionId := 7, InternalTickMsg := { tag := 0 }, Type_ := "runs" })).1.View
        Env.plain
      = loadedModel.View Env.plain :=
  Update_tick_when_not_loading Env.plain loadedModel
    { SectionId := 7, InternalTickMsg := { tag := 0 }, Type_ := "runs" } rfl

/-- C8: the command returned by `FetchSectionRows` is a batch of the next tick
and of the fetch closure; when `ListRuns` returns, the closure produces a
`SectionRunsFetchedMsg` whose `SectionId` is the `Id()` of the section (the id
given to `NewModel`, which `FetchSectionRows` keeps), with the fetched runs
when there is no error, and with the error and an empty run list otherwise. -/
theorem FetchSectionRows_message_carries_id (env : Env) (heap : Heap) (id : Int)
    (ctx : CtxPtr) (config : SectionConfig) (m : Model) (gh : GhExec) (runs : List RunData)
    (err : Option GoError)
    (h : ListRuns gh (m.FetchSectionRows.1.fetchLimit heap) = .ok (runs, err)) :
    (NewModel env heap id ctx config).Id = id ∧
    m.FetchSectionRows.1.Id = m.Id ∧
    (∃ tickCmd run, m.FetchSectionRows.2 = some (.batch [tickCmd, some (.fetch run)]) ∧
      run heap m.FetchSectionRows.1 gh
        = .ok (.runsFetched
            { SectionId := m.Id, Runs := if err.isSome then [] else runs, Err := err })) := by
  refine ⟨rfl, rfl, _, fetchRunsCmd, rfl, ?_⟩
  simp only [fetchRunsCmd, h, bind, Except.bind]
  cases err <;> rfl

/-- C8, on a fresh section and a command that prints a header and one run. -/
theorem FetchSectionRows_message_carries_id_witness :
    (NewModel Env.plain sampleHeap 7 0 sampleSectionConfig).Id = 7 ∧
    sampleModel.FetchSectionRows.1.Id = sampleModel.Id ∧
    (∃ tickCmd run,
      sampleModel.FetchSectionRows.2 = some (.batch [tickCmd, some (.fetch run)]) ∧
      run sampleHeap sampleModel.FetchSectionRows.1 ghOneRun
        = .ok (.runsFetched
            { SectionId := sampleModel.Id,
              Runs := if (none : Option GoError).isSome then [] else [sampleRun],
              Err := none })) :=
  FetchSectionRows_message_carries_id Env.plain sampleHeap 7 0 sampleSectionConfig sampleModel
    ghOneRun [sampleRun] none (by rfl)

end GhDash
